import Mathlib

/-
Verification of the movinate-backend room/vote registry
(`src/sockets/index.js`): room lifecycle, membership, per-member
state, and the consensus-detection algorithm.

The JavaScript module keeps two process-wide objects, `rooms`
(room id to Set of socket ids) and `users` (socket id to user
record), and registers socket handlers `createRoom`, `joinRoom`,
`setUserServer`, `setUserLibrary`, `requestUserCount`, `upvote`
and `disconnect`.  We embed the module shallowly: JS objects used
as string-keyed maps become association lists, JS Sets become
duplicate-free lists preserving insertion order, socket emissions
become explicit event lists, acknowledgement callbacks become
returned values, and a JS TypeError (dereferencing `undefined`,
or invoking an absent callback) becomes `Option.none`.
-/

abbrev SocketId := String
abbrev RoomId := String
abbrev MediaId := String

/-- JavaScript values as far as the module inspects them: the
`server` and `library` payloads may be any JS value, and
`isObject` distinguishes non-null plain objects from arrays,
primitives and null. -/
inductive JSValue where
  | jsStr : String → JSValue
  | jsNum : Int → JSValue
  | jsBool : Bool → JSValue
  | jsNull : JSValue
  | jsArr : List JSValue → JSValue
  | jsObj : List (String × JSValue) → JSValue

/-- A member record, translated from the `createUser` typedef:
owning room id, server descriptor, library descriptor, and the
set of upvoted media ids (a JS Set, kept as an insertion-ordered
duplicate-free list). -/
structure User where
  roomId : RoomId
  server : JSValue
  library : JSValue
  upvoted : List MediaId

/-- The two process-wide maps `rooms` and `users`.  Each room is
the insertion-ordered list of member socket ids. -/
structure ServerState where
  rooms : List (RoomId × List SocketId)
  users : List (SocketId × User)

/-- Events broadcast to a room: the member-count update
`userCount {count}` and the `consensusReached {id}` signal. -/
inductive Emit where
  | userCount : RoomId → Int → Emit
  | consensusReached : RoomId → MediaId → Emit
deriving DecidableEq

/-- An acknowledgement payload of shape `{success, message}`. -/
structure ResultMsg where
  success : Bool
  message : String
deriving DecidableEq

/-- The `joinRoom` acknowledgement: either
`{success true, server, library}` or `{success false, message}`. -/
inductive JoinReply where
  | ok : JSValue → JSValue → JoinReply
  | failure : String → JoinReply

/-- Property lookup on a string-keyed JS object. -/
def mapLookup {β : Type} (k : String) : List (String × β) → Option β
  | [] => none
  | (k2, v) :: rest => if k = k2 then some v else mapLookup k rest

/-- The JS `delete` operator on a string-keyed object. -/
def mapErase {β : Type} (k : String) (m : List (String × β)) : List (String × β) :=
  m.filter (fun p => p.1 ≠ k)

/-- Property assignment `m[k] = v` on a string-keyed JS object. -/
def mapInsert {β : Type} (k : String) (v : β) (m : List (String × β)) : List (String × β) :=
  (k, v) :: mapErase k m

/-- JS `Set.prototype.add`: appends the element iff absent. -/
def setAdd (x : String) (s : List String) : List String :=
  if x ∈ s then s else s ++ [x]

/-- From the source: `createUser(roomId)` returns a record with
the given room, empty-string server and library, and an empty
upvoted set. -/
def createUser (roomId : RoomId) : User :=
  { roomId := roomId, server := JSValue.jsStr "", library := JSValue.jsStr "", upvoted := [] }

/-- From the source: `isObject(parameter)` is
`parameter != null && Object.getPrototypeOf(parameter) == Object.prototype`,
true exactly for non-null plain objects. -/
def isObject : JSValue → Bool
  | JSValue.jsObj _ => true
  | _ => false

/-- From the source: `getPlexInformationForRoom(id)` reads the
server/library of the first user in the room.  `none` models the
TypeError raised when the room is absent (the caller destructures
`undefined`), the room is empty, or the first member has no user
record (`roomOwner.server` on `undefined`). -/
def getPlexInformationForRoom (s : ServerState) (id : RoomId) : Option (JSValue × JSValue) :=
  match mapLookup id s.rooms with
  | none => none
  | some mem =>
    match mem.head? with
    | none => none
    | some owner =>
      match mapLookup owner s.users with
      | none => none
      | some u => some (u.server, u.library)

/-- From the source: `emitRoomUserCount(io, id)` broadcasts
`{count}` where `count = rooms[id]?.size || -1`; JS `||` turns
both a missing room (`undefined`) and a size of `0` into `-1`. -/
def emitRoomUserCount (s : ServerState) (id : RoomId) : Emit :=
  Emit.userCount id
    (match mapLookup id s.rooms with
     | some mem => if mem.length = 0 then -1 else (mem.length : Int)
     | none => -1)

/-- The body of JS `Array.prototype.every` as used by
`checkConsensus`: walks the members in order, short-circuiting on
the first member without the vote; `none` models the TypeError on
`users[socketId].upvoted` when a scanned member has no record. -/
def everyUpvoted (us : List (SocketId × User)) (mem : List SocketId) (item : MediaId) :
    Option Bool :=
  match mem with
  | [] => some true
  | m :: rest =>
    match mapLookup m us with
    | none => none
    | some u => if u.upvoted.contains item then everyUpvoted us rest item else some false

/-- From the source: `checkConsensus(roomId, mediaId, io)` is a
no-op when the room is gone, and otherwise emits
`consensusReached {id: mediaId}` iff every member of the room has
the item in their upvoted set. -/
def checkConsensus (s : ServerState) (roomId : RoomId) (mediaId : MediaId) :
    Option (List Emit) :=
  match mapLookup roomId s.rooms with
  | none => some []
  | some mem =>
    match everyUpvoted s.users mem mediaId with
    | none => none
    | some true => some [Emit.consensusReached roomId mediaId]
    | some false => some []

/-- From the source: the `createRoom` handler, with the freshly
generated room id passed in.  Creates the room holding just this
socket, overwrites the user record, acknowledges with the room id
and broadcasts the member count. -/
def createRoomOp (s : ServerState) (sid : SocketId) (id : RoomId) :
    ServerState × RoomId × List Emit :=
  let rooms2 := mapInsert id (setAdd sid []) s.rooms
  let s2 : ServerState := { rooms := rooms2, users := mapInsert sid (createUser id) s.users }
  (s2, id, [emitRoomUserCount s2 id])

/-- From the source: the `joinRoom` handler.  On an unknown room
it acknowledges failure and changes nothing; otherwise it adds the
socket to the room, creates a fresh user record, copies the first
member's server/library into it, acknowledges with the copied
values and broadcasts the member count.  `none` propagates the
TypeError of `getPlexInformationForRoom`. -/
def joinRoomOp (s : ServerState) (sid : SocketId) (id : RoomId) :
    Option (ServerState × JoinReply × List Emit) :=
  match mapLookup id s.rooms with
  | none => some (s, JoinReply.failure ("Unable to find room with the Id: " ++ id), [])
  | some mem =>
    let rooms2 := mapInsert id (setAdd sid mem) s.rooms
    let users1 := mapInsert sid (createUser id) s.users
    let s1 : ServerState := { rooms := rooms2, users := users1 }
    match getPlexInformationForRoom s1 id with
    | none => none
    | some (server, library) =>
      let u2 : User := { roomId := id, server := server, library := library, upvoted := [] }
      let s2 : ServerState := { rooms := rooms2, users := mapInsert sid u2 users1 }
      some (s2, JoinReply.ok server library, [emitRoomUserCount s2 id])

/-- From the source: the `setUserServer` handler. -/
def setUserServer (s : ServerState) (sid : SocketId) (v : JSValue) :
    ServerState × ResultMsg :=
  match mapLookup sid s.users with
  | some user =>
    if isObject v then
      ({ rooms := s.rooms, users := mapInsert sid { user with server := v } s.users },
       { success := true, message := "Updated the server for the user." })
    else
      (s, { success := false,
            message := "Failed to update the Plex.tv server. An invalid server object was received." })
  | none =>
    (s, { success := false, message := "Unable to find user with the Id: " ++ sid })

/-- From the source: the `setUserLibrary` handler. -/
def setUserLibrary (s : ServerState) (sid : SocketId) (v : JSValue) :
    ServerState × ResultMsg :=
  match mapLookup sid s.users with
  | some user =>
    if isObject v then
      ({ rooms := s.rooms, users := mapInsert sid { user with library := v } s.users },
       { success := true, message := "Updated the library for the user." })
    else
      (s, { success := false,
            message := "Failed to update the Plex.tv library. An invalid library object was received." })
  | none =>
    (s, { success := false, message := "Unable to find user with the Id: " ++ sid })

/-- From the source: the `requestUserCount` handler broadcasts the
count only when the room exists, and otherwise does nothing. -/
def requestUserCount (s : ServerState) (id : RoomId) : List Emit :=
  match mapLookup id s.rooms with
  | some _ => [emitRoomUserCount s id]
  | none => []

/-- From the source: the `disconnect` handler.  With no user
record it does nothing.  Otherwise it removes the socket from its
room (when that room still exists), deletes the room if it became
empty or else broadcasts the updated count, and finally deletes
the user record. -/
def disconnectOp (s : ServerState) (sid : SocketId) : ServerState × List Emit :=
  match mapLookup sid s.users with
  | none => (s, [])
  | some user =>
    match mapLookup user.roomId s.rooms with
    | none => ({ rooms := s.rooms, users := mapErase sid s.users }, [])
    | some mem =>
      let mem2 := mem.filter (fun m => m ≠ sid)
      if mem2.length = 0 then
        ({ rooms := mapErase user.roomId s.rooms, users := mapErase sid s.users }, [])
      else
        let rooms2 := mapInsert user.roomId mem2 s.rooms
        ({ rooms := rooms2, users := mapErase sid s.users },
         [emitRoomUserCount { rooms := rooms2, users := s.users } user.roomId])

/-- From the source: the `upvote` handler, with `cb` recording
whether the caller supplied an acknowledgement callback.  A vote
for an item already in the set is a silent no-op.  A fresh vote
adds the item, acknowledges (only when a callback was supplied:
the success path is guarded by `typeof callback == "function"`)
and runs the consensus check.  The member-not-found branch invokes
the callback unconditionally, so `none` models the TypeError when
no callback was supplied. -/
def upvoteOp (s : ServerState) (sid : SocketId) (item : MediaId) (cb : Bool) :
    Option (ServerState × List ResultMsg × List Emit) :=
  match mapLookup sid s.users with
  | some user =>
    if user.upvoted.contains item then
      some (s, [], [])
    else
      let user2 := { user with upvoted := setAdd item user.upvoted }
      let s2 : ServerState := { rooms := s.rooms, users := mapInsert sid user2 s.users }
      let acks := if cb then [ResultMsg.mk true "Upvoted successfully."] else []
      match checkConsensus s2 user.roomId item with
      | none => none
      | some emits => some (s2, acks, emits)
  | none =>
    if cb then
      some (s, [ResultMsg.mk false ("Unable to find user with the Id: " ++ sid)], [])
    else
      none

/-! ### Map and set lemmas -/

theorem mapLookup_insert_self {β : Type} (k : String) (v : β) (m : List (String × β)) :
    mapLookup k (mapInsert k v m) = some v := by
  simp [mapInsert, mapLookup]

theorem mapLookup_erase_ne {β : Type} (k k2 : String) (m : List (String × β))
    (h : k ≠ k2) : mapLookup k (mapErase k2 m) = mapLookup k m := by
  induction m with
  | nil => rfl
  | cons p rest ih =>
    by_cases hk : p.1 = k2
    · have : mapErase k2 (p :: rest) = mapErase k2 rest := by
        simp [mapErase, List.filter, hk]
      rw [this, ih]
      have hne : k ≠ p.1 := by
        intro hkp
        exact h (hkp.trans hk)
      cases p with
      | mk a b =>
        simp only [mapLookup]
        rw [if_neg hne]
    · have : mapErase k2 (p :: rest) = p :: mapErase k2 rest := by
        simp [mapErase, List.filter, hk]
      rw [this]
      cases p with
      | mk a b =>
        by_cases hka : k = a
        · simp [mapLookup, hka]
        · simp only [mapLookup]
          rw [if_neg hka, if_neg hka, ih]

theorem mapLookup_erase_self {β : Type} (k : String) (m : List (String × β)) :
    mapLookup k (mapErase k m) = none := by
  induction m with
  | nil => rfl
  | cons p rest ih =>
    by_cases hk : p.1 = k
    · have : mapErase k (p :: rest) = mapErase k rest := by
        simp [mapErase, List.filter, hk]
      rw [this, ih]
    · have : mapErase k (p :: rest) = p :: mapErase k rest := by
        simp [mapErase, List.filter, hk]
      rw [this]
      cases p with
      | mk a b =>
        simp only [mapLookup]
        have : k ≠ a := fun hka => hk (hka.symm)
        rw [if_neg this, ih]

theorem mapLookup_insert_ne {β : Type} (k k2 : String) (v : β) (m : List (String × β))
    (h : k ≠ k2) : mapLookup k (mapInsert k2 v m) = mapLookup k m := by
  simp only [mapInsert, mapLookup]
  rw [if_neg h, mapLookup_erase_ne k k2 m h]

theorem mem_setAdd (x y : String) (s : List String) :
    y ∈ setAdd x s ↔ y ∈ s ∨ y = x := by
  by_cases hx : x ∈ s
  · simp only [setAdd, if_pos hx]
    constructor
    · exact fun h => Or.inl h
    · rintro (h | rfl)
      · exact h
      · exact hx
  · simp [setAdd, if_neg hx]

theorem setAdd_ne_nil (x : String) (s : List String) : setAdd x s ≠ [] := by
  by_cases hx : x ∈ s
  · simp only [setAdd, if_pos hx]
    intro hnil
    rw [hnil] at hx
    exact absurd hx (List.not_mem_nil x)
  · simp only [setAdd, if_neg hx]
    intro hnil
    exact absurd hnil (by simp)

theorem setAdd_head_cons (x a : String) (s : List String) :
    (setAdd x (a :: s)).head? = some a := by
  unfold setAdd
  by_cases hx : x ∈ a :: s
  · rw [if_pos hx]
    rfl
  · rw [if_neg hx]
    rfl

/-! ### Reachability

`StepU` is the transition relation exactly as the code allows it:
any connected socket may fire any handler at any time (the room
id handed to `createRoomOp` is fresh, as `generateRoomId`
guarantees).  Handlers whose embedding returns `none` raised a
TypeError and produce no successor state.  `StepG` is the guarded
variant in which `createRoom`/`joinRoom` are only fired by
sockets without a live user record, i.e. each connection enters a
room at most once before disconnecting. -/

inductive StepU : ServerState → ServerState → Prop where
  | create (s : ServerState) (sid : SocketId) (id : RoomId) (s2 : ServerState)
      (r : RoomId) (es : List Emit)
      (hfresh : mapLookup id s.rooms = none)
      (heq : createRoomOp s sid id = (s2, r, es)) : StepU s s2
  | join (s : ServerState) (sid : SocketId) (id : RoomId) (s2 : ServerState)
      (rep : JoinReply) (es : List Emit)
      (heq : joinRoomOp s sid id = some (s2, rep, es)) : StepU s s2
  | setServer (s : ServerState) (sid : SocketId) (v : JSValue) (s2 : ServerState)
      (r : ResultMsg)
      (heq : setUserServer s sid v = (s2, r)) : StepU s s2
  | setLibrary (s : ServerState) (sid : SocketId) (v : JSValue) (s2 : ServerState)
      (r : ResultMsg)
      (heq : setUserLibrary s sid v = (s2, r)) : StepU s s2
  | vote (s : ServerState) (sid : SocketId) (item : MediaId) (cb : Bool)
      (s2 : ServerState) (acks : List ResultMsg) (es : List Emit)
      (heq : upvoteOp s sid item cb = some (s2, acks, es)) : StepU s s2
  | leave (s : ServerState) (sid : SocketId) (s2 : ServerState) (es : List Emit)
      (heq : disconnectOp s sid = (s2, es)) : StepU s s2

inductive ReachU : ServerState → Prop where
  | init : ReachU { rooms := [], users := [] }
  | step (s s2 : ServerState) : ReachU s → StepU s s2 → ReachU s2

inductive StepG : ServerState → ServerState → Prop where
  | create (s : ServerState) (sid : SocketId) (id : RoomId) (s2 : ServerState)
      (r : RoomId) (es : List Emit)
      (hfresh : mapLookup id s.rooms = none)
      (hnew : mapLookup sid s.users = none)
      (heq : createRoomOp s sid id = (s2, r, es)) : StepG s s2
  | join (s : ServerState) (sid : SocketId) (id : RoomId) (s2 : ServerState)
      (rep : JoinReply) (es : List Emit)
      (hnew : mapLookup sid s.users = none)
      (heq : joinRoomOp s sid id = some (s2, rep, es)) : StepG s s2
  | setServer (s : ServerState) (sid : SocketId) (v : JSValue) (s2 : ServerState)
      (r : ResultMsg)
      (heq : setUserServer s sid v = (s2, r)) : StepG s s2
  | setLibrary (s : ServerState) (sid : SocketId) (v : JSValue) (s2 : ServerState)
      (r : ResultMsg)
      (heq : setUserLibrary s sid v = (s2, r)) : StepG s s2
  | vote (s : ServerState) (sid : SocketId) (item : MediaId) (cb : Bool)
      (s2 : ServerState) (acks : List ResultMsg) (es : List Emit)
      (heq : upvoteOp s sid item cb = some (s2, acks, es)) : StepG s s2
  | leave (s : ServerState) (sid : SocketId) (s2 : ServerState) (es : List Emit)
      (heq : disconnectOp s sid = (s2, es)) : StepG s s2

inductive ReachG : ServerState → Prop where
  | init : ReachG { rooms := [], users := [] }
  | step (s s2 : ServerState) : ReachG s → StepG s s2 → ReachG s2

/-- The registry consistency invariant: live rooms are nonempty,
every member of a live room has a user record pointing back at
that room, and every user record points at a live room containing
its socket. -/
structure RegistryInv (s : ServerState) : Prop where
  roomsNonempty : ∀ id mem, mapLookup id s.rooms = some mem → mem ≠ []
  memHasRecord : ∀ id mem x, mapLookup id s.rooms = some mem → x ∈ mem →
    ∃ u, mapLookup x s.users = some u ∧ u.roomId = id
  recordInRoom : ∀ x u, mapLookup x s.users = some u →
    ∃ mem, mapLookup u.roomId s.rooms = some mem ∧ x ∈ mem

/-! ### Invariant preservation -/

theorem inv_update_user (s : ServerState) (sid : SocketId) (u u2 : User)
    (hInv : RegistryInv s) (hu : mapLookup sid s.users = some u)
    (hroom : u2.roomId = u.roomId) :
    RegistryInv { rooms := s.rooms, users := mapInsert sid u2 s.users } := by
  constructor
  · exact fun id mem h => hInv.roomsNonempty id mem h
  · intro id mem x hmem hx
    obtain ⟨u3, hu3, hr3⟩ := hInv.memHasRecord id mem x hmem hx
    by_cases hxs : x = sid
    · subst hxs
      have huu : u3 = u := Option.some.inj (hu3.symm.trans hu)
      refine ⟨u2, mapLookup_insert_self _ u2 s.users, ?_⟩
      rw [hroom, ← huu]
      exact hr3
    · exact ⟨u3, by rw [mapLookup_insert_ne x sid u2 s.users hxs]; exact hu3, hr3⟩
  · intro x u3 hx
    by_cases hxs : x = sid
    · subst hxs
      rw [mapLookup_insert_self] at hx
      obtain rfl := Option.some.inj hx
      obtain ⟨mem, hm, hxm⟩ := hInv.recordInRoom _ u hu
      exact ⟨mem, by rw [hroom]; exact hm, hxm⟩
    · rw [mapLookup_insert_ne x sid u2 s.users hxs] at hx
      exact hInv.recordInRoom x u3 hx

theorem inv_setUserServer (s : ServerState) (sid : SocketId) (v : JSValue)
    (hInv : RegistryInv s) : RegistryInv (setUserServer s sid v).1 := by
  cases hu : mapLookup sid s.users with
  | none => simpa [setUserServer, hu] using hInv
  | some user =>
    by_cases hio : isObject v = true
    · have h2 := inv_update_user s sid user { user with server := v } hInv hu rfl
      simpa [setUserServer, hu, hio] using h2
    · simpa [setUserServer, hu, hio] using hInv

theorem inv_setUserLibrary (s : ServerState) (sid : SocketId) (v : JSValue)
    (hInv : RegistryInv s) : RegistryInv (setUserLibrary s sid v).1 := by
  cases hu : mapLookup sid s.users with
  | none => simpa [setUserLibrary, hu] using hInv
  | some user =>
    by_cases hio : isObject v = true
    · have h2 := inv_update_user s sid user { user with library := v } hInv hu rfl
      simpa [setUserLibrary, hu, hio] using h2
    · simpa [setUserLibrary, hu, hio] using hInv

theorem inv_upvote (s : ServerState) (sid : SocketId) (item : MediaId) (cb : Bool)
    (s2 : ServerState) (acks : List ResultMsg) (es : List Emit)
    (hInv : RegistryInv s) (heq : upvoteOp s sid item cb = some (s2, acks, es)) :
    RegistryInv s2 := by
  cases hu : mapLookup sid s.users with
  | none =>
    rw [upvoteOp, hu] at heq
    cases cb with
    | true =>
      simp only [if_true] at heq
      obtain ⟨rfl, -, -⟩ := by simpa using heq
      exact hInv
    | false => simp at heq
  | some user =>
    by_cases hc : user.upvoted.contains item = true
    · rw [upvoteOp, hu] at heq
      simp only [hc, if_true] at heq
      obtain ⟨rfl, -, -⟩ := by simpa using heq
      exact hInv
    · rw [upvoteOp, hu] at heq
      simp only [hc, if_false, Bool.false_eq_true] at heq
      cases hcc : checkConsensus
          { rooms := s.rooms,
            users := mapInsert sid { user with upvoted := setAdd item user.upvoted } s.users }
          user.roomId item with
      | none =>
        rw [hcc] at heq
        simp at heq
      | some emits =>
        rw [hcc] at heq
        obtain ⟨rfl, -, -⟩ := by simpa using heq
        exact inv_update_user s sid user { user with upvoted := setAdd item user.upvoted }
          hInv hu rfl

theorem setAdd_nil (x : String) : setAdd x [] = [x] := by
  simp [setAdd]

theorem inv_create_room (s : ServerState) (sid : SocketId) (id : RoomId)
    (hInv : RegistryInv s) (hfresh : mapLookup id s.rooms = none)
    (hnew : mapLookup sid s.users = none) :
    RegistryInv (createRoomOp s sid id).1 := by
  rw [createRoomOp]
  constructor
  · intro id2 mem h
    by_cases hid : id2 = id
    · subst hid
      rw [mapLookup_insert_self] at h
      obtain rfl := Option.some.inj h
      exact setAdd_ne_nil sid []
    · rw [mapLookup_insert_ne id2 id _ _ hid] at h
      exact hInv.roomsNonempty id2 mem h
  · intro id2 mem x h hx
    by_cases hid : id2 = id
    · subst hid
      rw [mapLookup_insert_self] at h
      obtain rfl := Option.some.inj h
      rw [setAdd_nil] at hx
      obtain rfl := List.mem_singleton.mp hx
      exact ⟨createUser _, mapLookup_insert_self x _ _, rfl⟩
    · rw [mapLookup_insert_ne id2 id _ _ hid] at h
      obtain ⟨u, hu, hr⟩ := hInv.memHasRecord id2 mem x h hx
      have hxs : x ≠ sid := by
        intro hxe
        rw [hxe, hnew] at hu
        exact Option.noConfusion hu
      exact ⟨u, by rw [mapLookup_insert_ne x sid _ _ hxs]; exact hu, hr⟩
  · intro x u hx
    by_cases hxs : x = sid
    · subst hxs
      rw [mapLookup_insert_self] at hx
      obtain rfl := Option.some.inj hx
      refine ⟨setAdd x [], mapLookup_insert_self id _ _, ?_⟩
      rw [setAdd_nil]
      exact List.mem_singleton.mpr rfl
    · rw [mapLookup_insert_ne x sid _ _ hxs] at hx
      obtain ⟨mem, hm, hxm⟩ := hInv.recordInRoom x u hx
      have hrid : u.roomId ≠ id := by
        intro hre
        rw [hre, hfresh] at hm
        exact Option.noConfusion hm
      exact ⟨mem, by rw [mapLookup_insert_ne _ id _ _ hrid]; exact hm, hxm⟩

theorem inv_add_member (s : ServerState) (sid : SocketId) (id : RoomId)
    (mem : List SocketId) (u2 : User)
    (hInv : RegistryInv s) (hnew : mapLookup sid s.users = none)
    (hr : mapLookup id s.rooms = some mem) (hrid : u2.roomId = id) :
    RegistryInv { rooms := mapInsert id (setAdd sid mem) s.rooms,
                  users := mapInsert sid u2 (mapInsert sid (createUser id) s.users) } := by
  have lookup2 : ∀ x : SocketId, x ≠ sid →
      mapLookup x (mapInsert sid u2 (mapInsert sid (createUser id) s.users))
        = mapLookup x s.users := by
    intro x hxs
    rw [mapLookup_insert_ne x sid _ _ hxs, mapLookup_insert_ne x sid _ _ hxs]
  constructor
  · intro id2 mem2 h
    by_cases hid : id2 = id
    · subst hid
      rw [mapLookup_insert_self] at h
      obtain rfl := Option.some.inj h
      exact setAdd_ne_nil sid mem
    · rw [mapLookup_insert_ne id2 id _ _ hid] at h
      exact hInv.roomsNonempty id2 mem2 h
  · intro id2 mem2 x h hx
    by_cases hxs : x = sid
    · subst hxs
      refine ⟨u2, mapLookup_insert_self _ u2 _, ?_⟩
      rw [hrid]
      by_cases hid : id2 = id
      · rw [hid]
      · exfalso
        rw [mapLookup_insert_ne id2 id _ _ hid] at h
        obtain ⟨u3, hu3, -⟩ := hInv.memHasRecord id2 mem2 x h hx
        rw [hnew] at hu3
        exact Option.noConfusion hu3
    · rw [lookup2 x hxs]
      by_cases hid : id2 = id
      · subst hid
        rw [mapLookup_insert_self] at h
        obtain rfl := Option.some.inj h
        have hxmem : x ∈ mem := by
          rcases (mem_setAdd sid x mem).mp hx with h1 | h1
          · exact h1
          · exact absurd h1 hxs
        exact hInv.memHasRecord _ mem x hr hxmem
      · rw [mapLookup_insert_ne id2 id _ _ hid] at h
        exact hInv.memHasRecord id2 mem2 x h hx
  · intro x u3 hx
    by_cases hxs : x = sid
    · subst hxs
      rw [mapLookup_insert_self] at hx
      obtain rfl := Option.some.inj hx
      refine ⟨setAdd x mem, ?_, (mem_setAdd x x mem).mpr (Or.inr rfl)⟩
      rw [hrid, mapLookup_insert_self]
    · rw [lookup2 x hxs] at hx
      obtain ⟨mem2, hm, hxm⟩ := hInv.recordInRoom x u3 hx
      by_cases hid : u3.roomId = id
      · rw [hid] at hm
        obtain rfl := Option.some.inj (hm.symm.trans hr)
        refine ⟨setAdd sid mem2, ?_, (mem_setAdd sid x mem2).mpr (Or.inl hxm)⟩
        rw [hid, mapLookup_insert_self]
      · exact ⟨mem2, by rw [mapLookup_insert_ne _ id _ _ hid]; exact hm, hxm⟩

theorem inv_join (s : ServerState) (sid : SocketId) (id : RoomId) (s2 : ServerState)
    (rep : JoinReply) (es : List Emit)
    (hInv : RegistryInv s) (hnew : mapLookup sid s.users = none)
    (heq : joinRoomOp s sid id = some (s2, rep, es)) :
    RegistryInv s2 := by
  cases hr : mapLookup id s.rooms with
  | none =>
    rw [joinRoomOp, hr] at heq
    obtain ⟨rfl, -, -⟩ := by simpa using heq
    exact hInv
  | some mem =>
    rw [joinRoomOp, hr] at heq
    simp only at heq
    cases hg : getPlexInformationForRoom
        { rooms := mapInsert id (setAdd sid mem) s.rooms,
          users := mapInsert sid (createUser id) s.users } id with
    | none =>
      rw [hg] at heq
      simp at heq
    | some p =>
      obtain ⟨server, library⟩ := p
      rw [hg] at heq
      simp only [Option.some.injEq, Prod.mk.injEq] at heq
      obtain ⟨rfl, -, -⟩ := heq
      exact inv_add_member s sid id mem
        { roomId := id, server := server, library := library, upvoted := [] }
        hInv hnew hr rfl

theorem inv_disconnect (s : ServerState) (sid : SocketId)
    (hInv : RegistryInv s) : RegistryInv (disconnectOp s sid).1 := by
  cases hu : mapLookup sid s.users with
  | none => simpa [disconnectOp, hu] using hInv
  | some user =>
    cases hr : mapLookup user.roomId s.rooms with
    | none =>
      obtain ⟨mem, hm, -⟩ := hInv.recordInRoom sid user hu
      rw [hr] at hm
      exact Option.noConfusion hm
    | some mem =>
      have mem_filter : ∀ y : SocketId,
          y ∈ mem.filter (fun m => m ≠ sid) ↔ y ∈ mem ∧ y ≠ sid := by
        intro y
        simp [List.mem_filter]
      by_cases hlen : (mem.filter (fun m => m ≠ sid)).length = 0
      · have hres : (disconnectOp s sid).1
            = { rooms := mapErase user.roomId s.rooms, users := mapErase sid s.users } := by
          simp only [disconnectOp, hu, hr]
          rw [if_pos hlen]
        have hmem2 : mem.filter (fun m => m ≠ sid) = [] := List.length_eq_zero.mp hlen
        have hall : ∀ y, y ∈ mem → y = sid := by
          intro y hy
          by_contra hne
          have hyf : y ∈ mem.filter (fun m => m ≠ sid) := (mem_filter y).mpr ⟨hy, hne⟩
          rw [hmem2] at hyf
          exact absurd hyf (List.not_mem_nil y)
        rw [hres]
        constructor
        · intro id2 mem2 h
          by_cases hid : id2 = user.roomId
          · rw [hid, mapLookup_erase_self] at h
            exact Option.noConfusion h
          · rw [mapLookup_erase_ne id2 _ _ hid] at h
            exact hInv.roomsNonempty id2 mem2 h
        · intro id2 mem2 x h hx
          by_cases hid : id2 = user.roomId
          · rw [hid, mapLookup_erase_self] at h
            exact Option.noConfusion h
          · rw [mapLookup_erase_ne id2 _ _ hid] at h
            obtain ⟨u3, hu3, hr3⟩ := hInv.memHasRecord id2 mem2 x h hx
            have hxs : x ≠ sid := by
              intro hxe
              rw [hxe, hu] at hu3
              obtain rfl := Option.some.inj hu3.symm
              exact hid hr3.symm
            exact ⟨u3, by rw [mapLookup_erase_ne x sid _ hxs]; exact hu3, hr3⟩
        · intro x u3 hx
          by_cases hxs : x = sid
          · rw [hxs, mapLookup_erase_self] at hx
            exact Option.noConfusion hx
          · rw [mapLookup_erase_ne x sid _ hxs] at hx
            obtain ⟨mem3, hm3, hxm3⟩ := hInv.recordInRoom x u3 hx
            have hid : u3.roomId ≠ user.roomId := by
              intro he
              rw [he, hr] at hm3
              obtain rfl := Option.some.inj hm3
              exact hxs (hall x hxm3)
            exact ⟨mem3, by rw [mapLookup_erase_ne _ _ _ hid]; exact hm3, hxm3⟩
      · have hres : (disconnectOp s sid).1
            = { rooms := mapInsert user.roomId (mem.filter (fun m => m ≠ sid)) s.rooms,
                users := mapErase sid s.users } := by
          simp only [disconnectOp, hu, hr]
          rw [if_neg hlen]
        rw [hres]
        constructor
        · intro id2 mem2 h
          by_cases hid : id2 = user.roomId
          · rw [hid, mapLookup_insert_self] at h
            obtain rfl := Option.some.inj h
            intro hnil
            rw [hnil] at hlen
            exact hlen rfl
          · rw [mapLookup_insert_ne id2 _ _ _ hid] at h
            exact hInv.roomsNonempty id2 mem2 h
        · intro id2 mem2 x h hx
          by_cases hid : id2 = user.roomId
          · subst hid
            rw [mapLookup_insert_self] at h
            obtain rfl := Option.some.inj h
            obtain ⟨hxm, hxs⟩ := (mem_filter x).mp hx
            obtain ⟨u3, hu3, hr3⟩ := hInv.memHasRecord _ mem x hr hxm
            exact ⟨u3, by rw [mapLookup_erase_ne x sid _ hxs]; exact hu3, hr3⟩
          · rw [mapLookup_insert_ne id2 _ _ _ hid] at h
            obtain ⟨u3, hu3, hr3⟩ := hInv.memHasRecord id2 mem2 x h hx
            have hxs : x ≠ sid := by
              intro hxe
              rw [hxe, hu] at hu3
              obtain rfl := Option.some.inj hu3.symm
              exact hid hr3.symm
            exact ⟨u3, by rw [mapLookup_erase_ne x sid _ hxs]; exact hu3, hr3⟩
        · intro x u3 hx
          by_cases hxs : x = sid
          · rw [hxs, mapLookup_erase_self] at hx
            exact Option.noConfusion hx
          · rw [mapLookup_erase_ne x sid _ hxs] at hx
            obtain ⟨mem3, hm3, hxm3⟩ := hInv.recordInRoom x u3 hx
            by_cases hid : u3.roomId = user.roomId
            · rw [hid, hr] at hm3
              obtain rfl := Option.some.inj hm3
              refine ⟨mem.filter (fun m => m ≠ sid), ?_, (mem_filter x).mpr ⟨hxm3, hxs⟩⟩
              rw [hid, mapLookup_insert_self]
            · exact ⟨mem3, by rw [mapLookup_insert_ne _ _ _ _ hid]; exact hm3, hxm3⟩

theorem stepG_inv (s s2 : ServerState) (hInv : RegistryInv s) (h : StepG s s2) :
    RegistryInv s2 := by
  cases h with
  | create sid id s3 r es hfresh hnew heq =>
    have h1 : (createRoomOp s sid id).1 = s2 := by rw [heq]
    exact h1 ▸ inv_create_room s sid id hInv hfresh hnew
  | join sid id s3 rep es hnew heq =>
    exact inv_join s sid id s2 rep es hInv hnew heq
  | setServer sid v s3 r heq =>
    have h1 : (setUserServer s sid v).1 = s2 := by rw [heq]
    exact h1 ▸ inv_setUserServer s sid v hInv
  | setLibrary sid v s3 r heq =>
    have h1 : (setUserLibrary s sid v).1 = s2 := by rw [heq]
    exact h1 ▸ inv_setUserLibrary s sid v hInv
  | vote sid item cb s3 acks es heq =>
    exact inv_upvote s sid item cb s2 acks es hInv heq
  | leave sid s3 es heq =>
    have h1 : (disconnectOp s sid).1 = s2 := by rw [heq]
    exact h1 ▸ inv_disconnect s sid hInv

theorem reachG_inv (s : ServerState) (h : ReachG s) : RegistryInv s := by
  induction h with
  | init =>
    constructor
    · intro id mem h
      exact Option.noConfusion h
    · intro id mem x h hx
      exact Option.noConfusion h
    · intro x u h
      exact Option.noConfusion h
  | step s s2 hr hs ih =>
    exact stepG_inv s s2 ih hs

/-! ### Consensus characterization -/

/-- Whether a member has upvoted an item, as the consensus scan
reads it: `users[socketId].upvoted.has(mediaId)`. -/
def memberUpvoted (us : List (SocketId × User)) (m : SocketId) (item : MediaId) : Bool :=
  match mapLookup m us with
  | some u => u.upvoted.contains item
  | none => false

theorem everyUpvoted_complete (us : List (SocketId × User)) (mem : List SocketId)
    (item : MediaId) (h : ∀ m, m ∈ mem → (mapLookup m us).isSome) :
    everyUpvoted us mem item = some (mem.all (fun m => memberUpvoted us m item)) := by
  induction mem with
  | nil => rfl
  | cons m rest ih =>
    have hm : (mapLookup m us).isSome := h m (List.mem_cons_self m rest)
    cases hml : mapLookup m us with
    | none => simp [hml] at hm
    | some u =>
      have hmf : memberUpvoted us m item = u.upvoted.contains item := by
        simp only [memberUpvoted, hml]
      by_cases hc : u.upvoted.contains item = true
      · have h1 : everyUpvoted us (m :: rest) item = everyUpvoted us rest item := by
          simp only [everyUpvoted, hml]
          rw [if_pos hc]
        rw [h1, ih (fun x hx => h x (List.mem_cons_of_mem m hx))]
        rw [List.all_cons, hmf, hc, Bool.true_and]
      · have hcf : u.upvoted.contains item = false := Bool.eq_false_iff.mpr hc
        have h1 : everyUpvoted us (m :: rest) item = some false := by
          simp only [everyUpvoted, hml]
          rw [if_neg hc]
        rw [h1, List.all_cons, hmf, hcf, Bool.false_and]

theorem checkConsensus_live (s : ServerState) (roomId : RoomId) (item : MediaId)
    (mem : List SocketId) (hr : mapLookup roomId s.rooms = some mem)
    (hrec : ∀ m, m ∈ mem → (mapLookup m s.users).isSome) :
    checkConsensus s roomId item =
      some (if mem.all (fun m => memberUpvoted s.users m item)
            then [Emit.consensusReached roomId item] else []) := by
  simp only [checkConsensus, hr]
  rw [everyUpvoted_complete s.users mem item hrec]
  by_cases hall : mem.all (fun m => memberUpvoted s.users m item) = true
  · rw [hall]
    simp
  · have hf : mem.all (fun m => memberUpvoted s.users m item) = false :=
      Bool.eq_false_iff.mpr hall
    rw [hf]
    simp

/-! ### Claim C2 -/

/-- C2: for a member with a live record, upvoting an item already
in the upvoted set is a silent no-op: the state is returned
unchanged, there is no acknowledgement, no consensus check and no
emission, whether or not a callback was supplied. -/
theorem upvote_repeat_noop (s : ServerState) (sid : SocketId) (item : MediaId)
    (cb : Bool) (u : User) (hu : mapLookup sid s.users = some u)
    (hc : u.upvoted.contains item = true) :
    upvoteOp s sid item cb = some (s, [], []) := by
  simp only [upvoteOp, hu]
  rw [if_pos hc]

/-- A concrete state: room AAAA whose two members A and B are
live, A having already upvoted item 42. -/
def voteState : ServerState :=
  { rooms := [("AAAA", ["A", "B"])],
    users := [("A", { roomId := "AAAA", server := JSValue.jsStr "",
                      library := JSValue.jsStr "", upvoted := ["42"] }),
              ("B", { roomId := "AAAA", server := JSValue.jsStr "",
                      library := JSValue.jsStr "", upvoted := [] })] }

/-- C2 witness: A re-upvoting item 42 in `voteState` changes
nothing and emits nothing. -/
theorem upvote_repeat_noop_witness :
    upvoteOp voteState "A" "42" true = some (voteState, [], []) :=
  upvote_repeat_noop voteState "A" "42" true
    { roomId := "AAAA", server := JSValue.jsStr "",
      library := JSValue.jsStr "", upvoted := ["42"] }
    rfl rfl

/-! ### Claim C5 -/

/-- C5 (at the failing input): an upvote from a connection with no
live member record raises a TypeError when no acknowledgement
callback is supplied, because the member-not-found branch invokes
the absent callback unguarded (`none` is the raised TypeError);
with a callback supplied it returns the failure result.  The
result contradicts the claim that every fallible operation
completes by returning a result rather than raising. -/
theorem upvote_missing_member_raises :
    upvoteOp { rooms := [], users := [] } "A" "42" false = none
      ∧ upvoteOp { rooms := [], users := [] } "A" "42" true
          = some ({ rooms := [], users := [] },
              [ResultMsg.mk false "Unable to find user with the Id: A"], []) :=
  ⟨rfl, rfl⟩

/-! ### Claim C8 -/

/-- C8: joining a room id that does not reference a live room
fails with the room-not-found message and leaves both maps
untouched (the returned state is the input state, so no member
record is created and no room set changes). -/
theorem joinRoom_unknown_room (s : ServerState) (sid : SocketId) (id : RoomId)
    (h : mapLookup id s.rooms = none) :
    joinRoomOp s sid id
      = some (s, JoinReply.failure ("Unable to find room with the Id: " ++ id), []) := by
  rw [joinRoomOp, h]

/-- C8 witness: joining room ZZZZ in the empty registry fails
with the message and changes nothing. -/
theorem joinRoom_unknown_room_witness :
    joinRoomOp { rooms := [], users := [] } "B" "ZZZZ"
      = some ({ rooms := [], users := [] },
          JoinReply.failure "Unable to find room with the Id: ZZZZ", []) := by
  have h := joinRoom_unknown_room { rooms := [], users := [] } "B" "ZZZZ" rfl
  simpa using h

/-! ### Claim C7 -/

/-- C7: `setUserServer`/`setUserLibrary` reject any value that is
not a non-null plain object (booleans, numbers, arrays, strings
and null all fail `isObject`), acknowledging failure and leaving
the state untouched; for plain objects (including the empty one)
they overwrite the targeted descriptor and acknowledge success;
and for a socket with no user record they acknowledge the
member-not-found failure whatever the value. -/
theorem setUser_payload_validation (s : ServerState) (sid : SocketId) (v : JSValue) :
    (∀ u, mapLookup sid s.users = some u → isObject v = false →
        setUserServer s sid v = (s, ResultMsg.mk false
            "Failed to update the Plex.tv server. An invalid server object was received.")
      ∧ setUserLibrary s sid v = (s, ResultMsg.mk false
            "Failed to update the Plex.tv library. An invalid library object was received."))
    ∧ (∀ u, mapLookup sid s.users = some u → isObject v = true →
        setUserServer s sid v
          = ({ rooms := s.rooms, users := mapInsert sid { u with server := v } s.users },
             ResultMsg.mk true "Updated the server for the user.")
      ∧ setUserLibrary s sid v
          = ({ rooms := s.rooms, users := mapInsert sid { u with library := v } s.users },
             ResultMsg.mk true "Updated the library for the user."))
    ∧ (mapLookup sid s.users = none →
        setUserServer s sid v
            = (s, ResultMsg.mk false ("Unable to find user with the Id: " ++ sid))
      ∧ setUserLibrary s sid v
            = (s, ResultMsg.mk false ("Unable to find user with the Id: " ++ sid)))
    ∧ isObject (JSValue.jsBool false) = false
    ∧ isObject (JSValue.jsNum 1234) = false
    ∧ isObject (JSValue.jsArr [JSValue.jsStr "Bad", JSValue.jsStr "String"]) = false
    ∧ isObject (JSValue.jsStr "Bad string") = false
    ∧ isObject JSValue.jsNull = false
    ∧ isObject (JSValue.jsObj []) = true := by
  refine ⟨?_, ?_, ?_, rfl, rfl, rfl, rfl, rfl, rfl⟩
  · intro u hu hv
    have hv2 : ¬(isObject v = true) := by
      rw [hv]
      exact Bool.false_ne_true
    constructor
    · simp only [setUserServer, hu]
      rw [if_neg hv2]
    · simp only [setUserLibrary, hu]
      rw [if_neg hv2]
  · intro u hu hv
    constructor
    · simp only [setUserServer, hu]
      rw [if_pos hv]
    · simp only [setUserLibrary, hu]
      rw [if_pos hv]
  · intro hn
    constructor
    · simp only [setUserServer, hn]
    · simp only [setUserLibrary, hn]

/-- C7 witness: in `voteState`, member A has a live record;
a number is rejected without touching the state, null is
rejected, the empty plain object is accepted, and an unknown
socket Z gets the member-not-found failure. -/
theorem setUser_payload_validation_witness :
    setUserServer voteState "A" (JSValue.jsNum 1234)
        = (voteState, ResultMsg.mk false
            "Failed to update the Plex.tv server. An invalid server object was received.")
      ∧ (setUserLibrary voteState "A" JSValue.jsNull).2.success = false
      ∧ (setUserServer voteState "A" (JSValue.jsObj [])).2.success = true
      ∧ (setUserServer voteState "Z" (JSValue.jsObj [])).2.success = false := by
  refine ⟨?_, ?_, ?_, ?_⟩
  · exact ((setUser_payload_validation voteState "A" (JSValue.jsNum 1234)).1
      { roomId := "AAAA", server := JSValue.jsStr "",
        library := JSValue.jsStr "", upvoted := ["42"] } rfl rfl).1
  · rw [((setUser_payload_validation voteState "A" JSValue.jsNull).1
      { roomId := "AAAA", server := JSValue.jsStr "",
        library := JSValue.jsStr "", upvoted := ["42"] } rfl rfl).2]
  · rw [((setUser_payload_validation voteState "A" (JSValue.jsObj [])).2.1
      { roomId := "AAAA", server := JSValue.jsStr "",
        library := JSValue.jsStr "", upvoted := ["42"] } rfl rfl).1]
  · rw [((setUser_payload_validation voteState "Z" (JSValue.jsObj [])).2.2.1 rfl).1]

/-! ### Claim C1 -/

theorem setAdd_contains_self (x : String) (l : List String) :
    (setAdd x l).contains x = true := by
  have hx : x ∈ setAdd x l := (mem_setAdd x x l).mpr (Or.inr rfl)
  exact List.elem_eq_true_of_mem hx

/-- C1: a member with a live record upvoting an item not yet in
their set gets the item added to their record, and the operation
runs the consensus check on the updated state: if the room named
by the record no longer exists nothing is emitted, and if it
exists (its members all having records, as the registry invariant
guarantees) the `consensusReached` event is emitted exactly when
every current member of the room has the item in their upvoted
set. -/
theorem upvote_new_item_consensus (s : ServerState) (sid : SocketId) (item : MediaId)
    (cb : Bool) (u : User)
    (hu : mapLookup sid s.users = some u)
    (hnew : u.upvoted.contains item = false) :
    (mapLookup sid (mapInsert sid { u with upvoted := setAdd item u.upvoted } s.users)
        = some { u with upvoted := setAdd item u.upvoted }
      ∧ (setAdd item u.upvoted).contains item = true)
    ∧ (mapLookup u.roomId s.rooms = none →
        upvoteOp s sid item cb
          = some ({ rooms := s.rooms,
                    users := mapInsert sid { u with upvoted := setAdd item u.upvoted } s.users },
              (if cb then [ResultMsg.mk true "Upvoted successfully."] else []), []))
    ∧ (∀ mem, mapLookup u.roomId s.rooms = some mem →
        (∀ m, m ∈ mem →
          (mapLookup m
            (mapInsert sid { u with upvoted := setAdd item u.upvoted } s.users)).isSome) →
        upvoteOp s sid item cb
          = some ({ rooms := s.rooms,
                    users := mapInsert sid { u with upvoted := setAdd item u.upvoted } s.users },
              (if cb then [ResultMsg.mk true "Upvoted successfully."] else []),
              if mem.all (fun m =>
                  memberUpvoted
                    (mapInsert sid { u with upvoted := setAdd item u.upvoted } s.users) m item)
                then [Emit.consensusReached u.roomId item] else [])) := by
  have hnc : ¬(u.upvoted.contains item = true) := by
    rw [hnew]
    exact Bool.false_ne_true
  refine ⟨⟨mapLookup_insert_self sid _ s.users, setAdd_contains_self item u.upvoted⟩, ?_, ?_⟩
  · intro hnone
    have hcc : checkConsensus
        { rooms := s.rooms,
          users := mapInsert sid { u with upvoted := setAdd item u.upvoted } s.users }
        u.roomId item = some [] := by
      simp only [checkConsensus, hnone]
    simp only [upvoteOp, hu]
    rw [if_neg hnc, hcc]
  · intro mem hmem hrec
    have hcc := checkConsensus_live
      { rooms := s.rooms,
        users := mapInsert sid { u with upvoted := setAdd item u.upvoted } s.users }
      u.roomId item mem hmem hrec
    simp only [upvoteOp, hu]
    rw [if_neg hnc, hcc]

/-- C1 witness: in `voteState` member A has already upvoted item
42 and member B has not; B upvoting 42 stores the item on B's
record, acknowledges, and fires `consensusReached` for room AAAA,
since now every member of the room has voted for it. -/
theorem upvote_new_item_consensus_witness :
    upvoteOp voteState "B" "42" true
      = some ({ rooms := voteState.rooms,
                users := mapInsert "B"
                  { roomId := "AAAA", server := JSValue.jsStr "",
                    library := JSValue.jsStr "", upvoted := ["42"] } voteState.users },
          [ResultMsg.mk true "Upvoted successfully."],
          [Emit.consensusReached "AAAA" "42"]) := by
  rw [(upvote_new_item_consensus voteState "B" "42" true
      { roomId := "AAAA", server := JSValue.jsStr "",
        library := JSValue.jsStr "", upvoted := [] }
      rfl rfl).2.2 ["A", "B"] rfl (by decide)]
  rfl

/-! ### Claim C6 -/

/-- C6: joining a live room as a fresh member succeeds; the reply
carries the server and library of the room's first (oldest)
member, an existing member whose own record is untouched, and the
joiner's new record stores exactly the copied values. -/
theorem joinRoom_copies_descriptors (s : ServerState) (sid : SocketId) (id : RoomId)
    (a : SocketId) (rest : List SocketId) (ua : User)
    (hroom : mapLookup id s.rooms = some (a :: rest))
    (howner : mapLookup a s.users = some ua)
    (hne : sid ≠ a) :
    joinRoomOp s sid id
      = some ({ rooms := mapInsert id (setAdd sid (a :: rest)) s.rooms,
                users := mapInsert sid
                  { roomId := id, server := ua.server, library := ua.library, upvoted := [] }
                  (mapInsert sid (createUser id) s.users) },
          JoinReply.ok ua.server ua.library,
          [Emit.userCount id ((setAdd sid (a :: rest)).length : Int)])
      ∧ mapLookup sid (mapInsert sid
            { roomId := id, server := ua.server, library := ua.library, upvoted := [] }
            (mapInsert sid (createUser id) s.users))
          = some { roomId := id, server := ua.server, library := ua.library, upvoted := [] }
      ∧ mapLookup a (mapInsert sid
            { roomId := id, server := ua.server, library := ua.library, upvoted := [] }
            (mapInsert sid (createUser id) s.users))
          = some ua
      ∧ a ∈ setAdd sid (a :: rest) := by
  have hlookA : mapLookup a (mapInsert sid
      { roomId := id, server := ua.server, library := ua.library, upvoted := [] }
      (mapInsert sid (createUser id) s.users)) = some ua := by
    rw [mapLookup_insert_ne a sid _ _ hne.symm, mapLookup_insert_ne a sid _ _ hne.symm]
    exact howner
  have hget : getPlexInformationForRoom
      { rooms := mapInsert id (setAdd sid (a :: rest)) s.rooms,
        users := mapInsert sid (createUser id) s.users } id
      = some (ua.server, ua.library) := by
    have h3 : mapLookup a (mapInsert sid (createUser id) s.users) = some ua := by
      rw [mapLookup_insert_ne a sid _ _ hne.symm]
      exact howner
    simp only [getPlexInformationForRoom, mapLookup_insert_self, setAdd_head_cons, h3]
  have hemit : emitRoomUserCount
      { rooms := mapInsert id (setAdd sid (a :: rest)) s.rooms,
        users := mapInsert sid
          { roomId := id, server := ua.server, library := ua.library, upvoted := [] }
          (mapInsert sid (createUser id) s.users) } id
      = Emit.userCount id ((setAdd sid (a :: rest)).length : Int) := by
    simp only [emitRoomUserCount, mapLookup_insert_self]
    rw [if_neg (fun hlen => setAdd_ne_nil sid (a :: rest) (List.length_eq_zero.mp hlen))]
  refine ⟨?_, mapLookup_insert_self sid _ _, hlookA,
    (mem_setAdd sid a (a :: rest)).mpr (Or.inl (List.mem_cons_self a rest))⟩
  simp only [joinRoomOp, hroom]
  simp only [hget, hemit]

/-- The state after socket A alone created room AAAA. -/
def stateA : ServerState := (createRoomOp { rooms := [], users := [] } "A" "AAAA").1

/-- A concrete plain-object server descriptor. -/
def vServer : JSValue := JSValue.jsObj [("name", JSValue.jsStr "plex")]

/-- A concrete plain-object library descriptor. -/
def vLibrary : JSValue := JSValue.jsObj [("section", JSValue.jsNum 1)]

/-- `stateA` after member A set their server and then their
library descriptor. -/
def roundTripState : ServerState :=
  (setUserLibrary (setUserServer stateA "A" vServer).1 "A" vLibrary).1

/-- C6 witness (the round trip of the claim): A created room AAAA
and set server/library; B joining AAAA is acknowledged with
exactly A's current descriptors, and the member count 2 is
broadcast. -/
theorem joinRoom_copies_descriptors_witness :
    (joinRoomOp roundTripState "B" "AAAA").map (fun t => t.2)
      = some (JoinReply.ok vServer vLibrary, [Emit.userCount "AAAA" 2]) := by
  rw [(joinRoom_copies_descriptors roundTripState "B" "AAAA" "A" []
      { roomId := "AAAA", server := vServer, library := vLibrary, upvoted := [] }
      rfl rfl (by decide)).1]
  rfl

/-! ### Claim C9 -/

/-- C9: disconnecting a member with a live record removes their id
from the room member set and deletes their record; if the set
became empty the room is deleted and any later join of its old id
fails with the room-not-found reply; otherwise the updated member
count is broadcast.  A socket with no record, or one whose
recorded room no longer exists, triggers no room change and no
broadcast. -/
theorem disconnect_contract (s : ServerState) (sid : SocketId) :
    (mapLookup sid s.users = none → disconnectOp s sid = (s, []))
    ∧ (∀ u mem, mapLookup sid s.users = some u →
        mapLookup u.roomId s.rooms = some mem →
        ((mem.filter (fun m => m ≠ sid)).length = 0 →
          disconnectOp s sid
            = ({ rooms := mapErase u.roomId s.rooms, users := mapErase sid s.users }, [])
          ∧ (∀ x, joinRoomOp { rooms := mapErase u.roomId s.rooms,
                               users := mapErase sid s.users } x u.roomId
              = some ({ rooms := mapErase u.roomId s.rooms, users := mapErase sid s.users },
                  JoinReply.failure ("Unable to find room with the Id: " ++ u.roomId), [])))
        ∧ ((mem.filter (fun m => m ≠ sid)).length ≠ 0 →
          disconnectOp s sid
            = ({ rooms := mapInsert u.roomId (mem.filter (fun m => m ≠ sid)) s.rooms,
                 users := mapErase sid s.users },
               [Emit.userCount u.roomId ((mem.filter (fun m => m ≠ sid)).length : Int)]))
        ∧ sid ∉ mem.filter (fun m => m ≠ sid)
        ∧ mapLookup sid (mapErase sid s.users) = none)
    ∧ (∀ u, mapLookup sid s.users = some u → mapLookup u.roomId s.rooms = none →
        disconnectOp s sid = ({ rooms := s.rooms, users := mapErase sid s.users }, [])) := by
  refine ⟨?_, ?_, ?_⟩
  · intro hn
    simp only [disconnectOp, hn]
  · intro u mem hu hr
    refine ⟨?_, ?_, ?_, mapLookup_erase_self sid s.users⟩
    · intro hlen
      constructor
      · simp only [disconnectOp, hu, hr]
        rw [if_pos hlen]
      · intro x
        rw [joinRoomOp, mapLookup_erase_self]
    · intro hlen
      have hemit : emitRoomUserCount
          { rooms := mapInsert u.roomId (mem.filter (fun m => m ≠ sid)) s.rooms,
            users := s.users } u.roomId
          = Emit.userCount u.roomId ((mem.filter (fun m => m ≠ sid)).length : Int) := by
        simp only [emitRoomUserCount, mapLookup_insert_self]
        rw [if_neg hlen]
      simp only [disconnectOp, hu, hr]
      rw [if_neg hlen, hemit]
    · intro hmem
      obtain ⟨-, habs⟩ := List.mem_filter.mp hmem
      simp at habs
  · intro u hu hr
    simp only [disconnectOp, hu, hr]

/-- C9 witness: disconnecting A from the two-member room in
`voteState` leaves room AAAA holding only B and broadcasts count
1; disconnecting A from the one-member room in `stateA` deletes
the room, after which C joining AAAA fails with room-not-found. -/
theorem disconnect_contract_witness :
    disconnectOp voteState "A"
        = ({ rooms := mapInsert "AAAA" ["B"] voteState.rooms,
             users := mapErase "A" voteState.users }, [Emit.userCount "AAAA" 1])
      ∧ disconnectOp stateA "A"
        = ({ rooms := mapErase "AAAA" stateA.rooms, users := mapErase "A" stateA.users }, [])
      ∧ joinRoomOp { rooms := mapErase "AAAA" stateA.rooms, users := mapErase "A" stateA.users }
          "C" "AAAA"
        = some ({ rooms := mapErase "AAAA" stateA.rooms, users := mapErase "A" stateA.users },
            JoinReply.failure "Unable to find room with the Id: AAAA", []) := by
  have h1 := ((disconnect_contract voteState "A").2.1
    { roomId := "AAAA", server := JSValue.jsStr "",
      library := JSValue.jsStr "", upvoted := ["42"] }
    ["A", "B"] rfl rfl).2.1 (by decide)
  have h2 := ((disconnect_contract stateA "A").2.1 (createUser "AAAA") ["A"] rfl rfl).1 (by decide)
  refine ⟨?_, ?_, ?_⟩
  · rw [h1]
    rfl
  · rw [h2.1]
    rfl
  · exact h2.2 "C"

/-! ### Claim C10 -/

/-- C10 counterexample: with no live room AAAA, `requestUserCount`
emits nothing at all, so in particular no member-count
notification carrying a negative sentinel is produced; the claim
that the notification carries a sentinel negative count for a
missing room is false (there is no notification). -/
theorem requestUserCount_missing_room_counterexample :
    mapLookup "AAAA" ({ rooms := [], users := [] } : ServerState).rooms = none
      ∧ requestUserCount { rooms := [], users := [] } "AAAA" = [] :=
  ⟨rfl, rfl⟩

/-- C10 amended: `requestUserCount` broadcasts the member-count
notification with count equal to the current size of the member
set when the room exists (live rooms being nonempty), and emits
nothing when it does not; the sentinel negative count of the
count computation is thus never broadcast by the request path. -/
theorem requestUserCount_contract (s : ServerState) (id : RoomId) :
    (∀ mem, mapLookup id s.rooms = some mem → mem ≠ [] →
      requestUserCount s id = [Emit.userCount id (mem.length : Int)])
    ∧ (mapLookup id s.rooms = none → requestUserCount s id = []) := by
  constructor
  · intro mem h hne
    simp only [requestUserCount, h, emitRoomUserCount]
    rw [if_neg (fun hlen => hne (List.length_eq_zero.mp hlen))]
  · intro h
    simp only [requestUserCount, h]

/-- C10 witness: requesting the count of the live two-member room
AAAA broadcasts count 2. -/
theorem requestUserCount_contract_witness :
    requestUserCount voteState "AAAA" = [Emit.userCount "AAAA" 2] := by
  rw [(requestUserCount_contract voteState "AAAA").1 ["A", "B"] rfl (by decide)]
  rfl

/-! ### Claims C3 and C4 -/

/-- The state reached when socket A creates room AAAA and then,
without disconnecting, creates room BBBB: the code overwrites A's
record but leaves A inside room AAAA's member set. -/
def doubleCreateState : ServerState :=
  (createRoomOp (createRoomOp { rooms := [], users := [] } "A" "AAAA").1 "A" "BBBB").1

theorem reachU_doubleCreateState : ReachU doubleCreateState :=
  ReachU.step _ _
    (ReachU.step _ _ ReachU.init
      (StepU.create { rooms := [], users := [] } "A" "AAAA"
        (createRoomOp { rooms := [], users := [] } "A" "AAAA").1
        "AAAA" [Emit.userCount "AAAA" 1] rfl rfl))
    (StepU.create (createRoomOp { rooms := [], users := [] } "A" "AAAA").1 "A" "BBBB"
      doubleCreateState "BBBB" [Emit.userCount "BBBB" 1] rfl rfl)

/-- C3 counterexample: after the reachable sequence
createRoom(A, AAAA); createRoom(A, BBBB), member A sits in the
member sets of the two distinct live rooms AAAA and BBBB, while
A's record names only BBBB — so a member id can belong to two
live rooms and the recorded room is not the only live room
containing it. -/
theorem member_in_two_rooms_counterexample :
    ReachU doubleCreateState
      ∧ mapLookup "AAAA" doubleCreateState.rooms = some ["A"]
      ∧ mapLookup "BBBB" doubleCreateState.rooms = some ["A"]
      ∧ ("A" : SocketId) ∈ (["A"] : List SocketId)
      ∧ ("AAAA" : RoomId) ≠ "BBBB"
      ∧ (mapLookup "A" doubleCreateState.users).map (fun u => u.roomId) = some "BBBB" :=
  ⟨reachU_doubleCreateState, rfl, rfl, by decide, by decide, rfl⟩

/-- C3 amended: in every state reachable by sequences in which
`createRoom` and `joinRoom` are only invoked by sockets without a
live record (each connection enters a room at most once before
disconnecting), every member id belongs to at most one live room,
and the room stored in a member record is the only live room
containing that member. -/
theorem member_at_most_one_room (s : ServerState) (h : ReachG s) :
    (∀ r1 r2 m1 m2 x, mapLookup r1 s.rooms = some m1 →
      mapLookup r2 s.rooms = some m2 → x ∈ m1 → x ∈ m2 → r1 = r2)
    ∧ (∀ x u r mem, mapLookup x s.users = some u →
        mapLookup r s.rooms = some mem → x ∈ mem → r = u.roomId) := by
  have hInv := reachG_inv s h
  constructor
  · intro r1 r2 m1 m2 x h1 h2 hx1 hx2
    obtain ⟨u1, hu1, hr1⟩ := hInv.memHasRecord r1 m1 x h1 hx1
    obtain ⟨u2, hu2, hr2⟩ := hInv.memHasRecord r2 m2 x h2 hx2
    obtain rfl := Option.some.inj (hu1.symm.trans hu2)
    rw [← hr1, ← hr2]
  · intro x u r mem hu hr hx
    obtain ⟨u2, hu2, hr2⟩ := hInv.memHasRecord r mem x hr hx
    obtain rfl := Option.some.inj (hu.symm.trans hu2)
    exact hr2.symm

theorem reachG_stateA : ReachG stateA :=
  ReachG.step _ _ ReachG.init
    (StepG.create { rooms := [], users := [] } "A" "AAAA" stateA
      "AAAA" [Emit.userCount "AAAA" 1] rfl rfl rfl)

/-- C3 witness: `stateA` is reachable under the guarded
semantics, and there the only live room containing A is the one
recorded on A's record. -/
theorem member_at_most_one_room_witness :
    ReachG stateA ∧ ("AAAA" : RoomId) = "AAAA" :=
  ⟨reachG_stateA,
   (member_at_most_one_room stateA reachG_stateA).1 "AAAA" "AAAA" ["A"] ["A"] "A"
     rfl rfl (by decide) (by decide)⟩

/-- The state reached from `doubleCreateState` when A disconnects:
room BBBB dies with A, but room AAAA survives still listing A,
whose record is gone. -/
def orphanRoomState : ServerState := (disconnectOp doubleCreateState "A").1

theorem reachU_orphanRoomState : ReachU orphanRoomState :=
  ReachU.step _ _ reachU_doubleCreateState
    (StepU.leave doubleCreateState "A" orphanRoomState [] rfl)

/-- C4 counterexample: in the reachable state after
createRoom(A, AAAA); createRoom(A, BBBB); disconnect(A), live
room AAAA contains member id A with no record in the member map,
and the consensus scan over room AAAA dereferences the missing
record (`none` is the raised TypeError). -/
theorem consensus_missing_record_counterexample :
    ReachU orphanRoomState
      ∧ mapLookup "AAAA" orphanRoomState.rooms = some ["A"]
      ∧ mapLookup "A" orphanRoomState.users = none
      ∧ checkConsensus orphanRoomState "AAAA" "42" = none :=
  ⟨reachU_orphanRoomState, rfl, rfl, rfl⟩

/-- C4 amended: in every state reachable under the guarded
semantics (each connection creates or joins a room at most once
before disconnecting), every member of a live room has a record
in the member map, and consequently the consensus scan is defined
for every room and item: `checkConsensus` never dereferences a
missing member record. -/
theorem consensus_scan_safe (s : ServerState) (h : ReachG s) :
    (∀ id mem x, mapLookup id s.rooms = some mem → x ∈ mem →
      (mapLookup x s.users).isSome)
    ∧ (∀ roomId item, checkConsensus s roomId item ≠ none) := by
  have hInv := reachG_inv s h
  have hrec : ∀ id mem x, mapLookup id s.rooms = some mem → x ∈ mem →
      (mapLookup x s.users).isSome := by
    intro id mem x hm hx
    obtain ⟨u, hu, -⟩ := hInv.memHasRecord id mem x hm hx
    rw [hu]
    rfl
  refine ⟨hrec, ?_⟩
  intro roomId item
  cases hr : mapLookup roomId s.rooms with
  | none => simp [checkConsensus, hr]
  | some mem =>
    rw [checkConsensus_live s roomId item mem hr (fun m hm => hrec roomId mem m hr hm)]
    simp

/-- C4 witness: in the guarded-reachable `stateA` the consensus
scan over room AAAA is defined. -/
theorem consensus_scan_safe_witness :
    checkConsensus stateA "AAAA" "42" ≠ none :=
  (consensus_scan_safe stateA reachG_stateA).2 "AAAA" "42"
